import Mathlib

/-!
Verification of the crypto-dash ETL pipeline (`src/scripts/update_data.py` and
`src/scripts/update_market_stats_updated.py`) against its specification.

The pipeline's records are Python dicts holding JSON-shaped values.  We embed
them as association lists from string keys to a `Val` type covering the value
shapes the pipeline manipulates (JSON null, numbers, strings, booleans).
Python floats are modelled by rationals: every binary float is a dyadic
rational, and none of the properties at issue hinge on rounding.  Fallible
Python operations (`float(...)` on a bad string, `.lower()` on a non-string,
ordering a non-number against an int) are modelled with `Option`, mirroring the
exceptions they raise; exception propagation through the stages is modelled
with `Except`.
-/

set_option linter.unusedVariables false
set_option maxRecDepth 40000
set_option exponentiation.threshold 5200

/-- A Python/JSON value as it flows through the ETL pipeline.
`float` carries a rational: Python floats are dyadic rationals, and the
claims under study do not depend on binary rounding.  `inf` is a float
infinity, which the cleaning stage can produce from exponent-form strings
(standard JSON itself has no infinities, so raw payloads are finite). -/
inductive Val where
  | null
  | int (n : ℤ)
  | float (q : ℚ)
  | inf (neg : Bool)
  | str (s : String)
  | bool (b : Bool)
deriving DecidableEq, Repr

/-- A record (Python dict with string keys): an association list.
Python dict keys are unique; lookups take the first match. -/
abbrev Rec := List (String × Val)

/-- The entry stored under key `k`, if any (Python `k in item` / `item[k]`). -/
def recLookup (r : Rec) (k : String) : Option Val :=
  (r.find? (fun p => p.1 == k)).map (fun p => p.2)

/-- Python `item.get(k)`: `None` when the key is absent. -/
def pyGet (r : Rec) (k : String) : Val :=
  (recLookup r k).getD .null

/-- Python `item.get(k, d)`: the default applies only when the key is absent;
a key explicitly set to `None` still returns `None`. -/
def pyGetD (r : Rec) (k : String) (d : Val) : Val :=
  (recLookup r k).getD d

/-- Update a key in a dict (`d[k] = v` / `dict.update`): replace in place if
present, append otherwise (Python dicts keep insertion order). -/
def setKey {β : Type} (l : List (String × β)) (k : String) (v : β) : List (String × β) :=
  if l.any (fun p => p.1 == k) then
    l.map (fun p => if p.1 == k then (k, v) else p)
  else l ++ [(k, v)]

/-- Python truthiness of a value (`bool(v)`). -/
def Val.truthy : Val → Bool
  | .null => false
  | .int n => n != 0
  | .float q => q != 0
  | .inf _ => true
  | .str s => s != ""
  | .bool b => b

/-- Numeric reading of a value; `none` when Python arithmetic or an order
comparison against a number would raise `TypeError`.  `bool` is an `int`
subclass in Python, so it reads as 0/1.  Float infinities also read as
non-numeric here: they cannot occur in the decoded standard-JSON payloads
the statistics helpers receive, and the statistics theorems are stated for
numeric values. -/
def Val.asNum? : Val → Option ℚ
  | .int n => some (n : ℚ)
  | .float q => some q
  | .bool b => some (if b then 1 else 0)
  | _ => none

/-- ASCII lower-casing of one character (the ids/symbols/urls this pipeline
lower-cases are ASCII). -/
def lowerChar (c : Char) : Char :=
  if 'A' ≤ c ∧ c ≤ 'Z' then Char.ofNat (c.toNat + 32) else c

/-- ASCII upper-casing of one character. -/
def upperChar (c : Char) : Char :=
  if 'a' ≤ c ∧ c ≤ 'z' then Char.ofNat (c.toNat - 32) else c

/-- Python `s.lower()` (ASCII range). -/
def strLower (s : String) : String := String.mk (s.toList.map lowerChar)

/-- Python `s.upper()` (ASCII range). -/
def strUpper (s : String) : String := String.mk (s.toList.map upperChar)

/-- Python `s.strip()`: drop leading and trailing whitespace. -/
def strTrim (s : String) : String :=
  String.mk (((s.toList.dropWhile Char.isWhitespace).reverse.dropWhile
    Char.isWhitespace).reverse)

/-- Value of an all-digit character run. -/
def digitsToNat (cs : List Char) : ℕ :=
  cs.foldl (fun a c => a * 10 + (c.toNat - 48)) 0

/-- Split a character list at its first dot.  `none` when there is more than
one dot (Python `float()` rejects such strings). -/
def splitAtDot : List Char → Option (List Char × Option (List Char))
  | [] => some ([], none)
  | '.' :: t => if t.contains '.' then none else some ([], some t)
  | c :: t => (splitAtDot t).map (fun p => (c :: p.1, p.2))

/-- Result of a successful Python `float()` conversion: a finite value
(modelled exactly by a rational) or a signed infinity.  NaN (reachable only
via the unmodelled word `nan`) is out of scope. -/
inductive PyNum where
  | fin (q : ℚ)
  | inf (neg : Bool)
deriving DecidableEq, Repr

/-- How a conversion fails: `caught` stands for the `ValueError`/`TypeError`
that the safe parsers' `except` clause lists; `overflow` for
`OverflowError`, which that clause does not list, so it propagates out of
the safe parsers. -/
inductive FloatErr where
  | caught
  | overflow
deriving DecidableEq, Repr

/-- Magnitudes of at least `2^1024 - 2^970` round past the largest double
(`2^1024 - 2^971`) under round-half-even, so `float()` overflows there: for
an int argument that raises `OverflowError`; a string parse yields ±inf. -/
def floatOvfBound : ℕ := 2 ^ 1024 - 2 ^ 970

/-- Whether the magnitude `M * 10^E` reaches the double overflow bound
(integer arithmetic only, so concrete runs stay kernel-evaluable). -/
def decOverflow (M : ℕ) (E : ℤ) : Bool :=
  if 0 ≤ E then floatOvfBound ≤ M * 10 ^ E.toNat
  else floatOvfBound * 10 ^ (-E).toNat ≤ M

/-- `10^E` as a rational. -/
def ratPow10 (E : ℤ) : ℚ :=
  if 0 ≤ E then ((10 ^ E.toNat : ℕ) : ℚ) else 1 / ((10 ^ (-E).toNat : ℕ) : ℚ)

/-- The value `±M * 10^E`. -/
def mantVal (neg : Bool) (M : ℕ) (E : ℤ) : ℚ :=
  (if neg then -1 else 1) * (M : ℚ) * ratPow10 E

/-- Classify a parsed decimal: ±inf past the overflow bound, otherwise its
exact rational value (sub-double underflow is not rounded to zero here,
consistent with modelling finite floats by exact rationals). -/
def finOrInf (neg : Bool) (M : ℕ) (E : ℤ) : PyNum :=
  if decOverflow M E then .inf neg else .fin (mantVal neg M E)

/-- Split a character list at the first exponent marker `e`/`E`. -/
def splitAtExp : List Char → List Char × Option (List Char)
  | [] => ([], none)
  | c :: t =>
      if c = 'e' ∨ c = 'E' then ([], some t)
      else
        let p := splitAtExp t
        (c :: p.1, p.2)

/-- An optionally signed nonempty digit run (the exponent part). -/
def parseExp : List Char → Option ℤ
  | [] => none
  | '-' :: t =>
      if t ≠ [] ∧ t.all Char.isDigit then some (-(digitsToNat t : ℤ)) else none
  | '+' :: t =>
      if t ≠ [] ∧ t.all Char.isDigit then some ((digitsToNat t : ℤ)) else none
  | t => if t.all Char.isDigit then some ((digitsToNat t : ℤ)) else none

/-- Guard past which an exponent is classified directly (overflow to ±inf;
underflow far past the smallest double to exact 0, as Python rounds it)
rather than computing an astronomically large power; within the guard the
exact value is computed. -/
def expGuard : ℕ := 4000

/-- The mantissa: digits with at most one point, at least one digit overall
(`"1."`, `".5"` accepted).  Returns the digit value and the count of
fractional digits. -/
def parseMant (cs : List Char) : Option (ℕ × ℕ) :=
  match splitAtDot cs with
  | none => none
  | some (w, none) =>
      if w ≠ [] ∧ w.all Char.isDigit then some (digitsToNat w, 0) else none
  | some (w, some f) =>
      if (w ≠ [] ∨ f ≠ []) ∧ w.all Char.isDigit ∧ f.all Char.isDigit then
        some (digitsToNat (w ++ f), f.length)
      else none

/-- Python `float(s)` on decimal and exponent literals: optional sign,
digits with at most one point, optional `e`/`E` exponent part; the words
`inf`/`infinity` (any case) parse to infinities.  `none` models the
`ValueError` raised on anything else (underscore, surrounding-whitespace and
`nan` forms are not modelled). -/
def parsePyFloat (s : String) : Option PyNum :=
  let cs := s.toList
  let neg : Bool := match cs with
    | '-' :: _ => true
    | _ => false
  let body : List Char := match cs with
    | '-' :: t => t
    | '+' :: t => t
    | t => t
  if body.map lowerChar = "inf".toList ∨ body.map lowerChar = "infinity".toList then
    some (.inf neg)
  else
    match splitAtExp body with
    | (m, none) => do
        let p ← parseMant m
        pure (finOrInf neg p.1 (-(p.2 : ℤ)))
    | (m, some e) => do
        let p ← parseMant m
        let ex ← parseExp e
        if ex.natAbs > expGuard then
          if p.1 = 0 ∨ ex < 0 then pure (.fin 0)
          else pure (.inf neg)
        else
          pure (finOrInf neg p.1 (ex - (p.2 : ℤ)))

/-- Python `float(value)`: `None` and unparsable strings raise errors the
safe parsers catch; an int past the double range raises `OverflowError`,
which they do not. -/
def pyFloatConv : Val → Except FloatErr PyNum
  | .null => .error .caught
  | .int n => if floatOvfBound ≤ n.natAbs then .error .overflow else .ok (.fin (n : ℚ))
  | .float q => .ok (.fin q)
  | .inf neg => .ok (.inf neg)
  | .bool b => .ok (.fin (if b then 1 else 0))
  | .str s =>
      match parsePyFloat s with
      | some x => .ok x
      | none => .error .caught

/-- Least positive power of ten clearing the denominator of `q`, giving its
exact finite decimal expansion (every binary float has one). -/
def decScale (q : ℚ) : Option ℕ :=
  (List.range 1101).find? (fun k => k != 0 && (q * (10 : ℚ) ^ k).den == 1)

/-- Decimal rendering of a float value, as `str()` produces for the ordinary
magnitudes this pipeline handles (always with a decimal point, e.g. `"2.0"`).
Exponent rendering of extreme magnitudes is not modelled.  The fallback branch
is unreachable for dyadic rationals. -/
def decimalRepr (q : ℚ) : String :=
  match decScale q with
  | some k =>
      let ds := (toString (q * (10 : ℚ) ^ k).num.natAbs).toList
      let ds := if ds.length ≤ k then List.replicate (k + 1 - ds.length) '0' ++ ds else ds
      let ip := ds.take (ds.length - k)
      let fp := ds.drop (ds.length - k)
      (if q < 0 then "-" else "") ++ String.mk ip ++ "." ++ String.mk fp
  | none => toString q.num ++ "/" ++ toString q.den

/-- Python `str(v)` for the value shapes occurring in these records. -/
def Val.pyStr : Val → String
  | .null => "None"
  | .int n => toString n
  | .float q => decimalRepr q
  | .inf neg => if neg then "-inf" else "inf"
  | .str s => s
  | .bool b => if b then "True" else "False"

/-- Whether `str(value)` contains a decimal point (the test `safe_int` makes). -/
def pyStrHasDot (v : Val) : Bool :=
  (Val.pyStr v).toList.contains '.'

/-- Python `int(q)` for a float: truncation toward zero. -/
def pyTrunc (q : ℚ) : ℤ :=
  Int.tdiv q.num (q.den : ℤ)

/-- Map a float-conversion result back into a record value. -/
def Val.ofPyNum : PyNum → Val
  | .fin q => .float q
  | .inf neg => .inf neg

/-- `x / 100` in the float domain (the 24h-change fraction). -/
def pnDiv100 : PyNum → PyNum
  | .fin q => .fin (q / 100)
  | .inf neg => .inf neg

/-- `safe_float` from `_clean_crypto_data` (update_data.py:389-395): `None`
or `''` give the default; otherwise `float(value)`, whose
`ValueError`/`TypeError` failures give the default — but whose
`OverflowError` (an int beyond double range) is not in the `except` clause
and escapes. -/
def safe_float (value : Val) (default : ℚ) : Except FloatErr PyNum :=
  if value = .null ∨ value = .str "" then .ok (.fin default)
  else match pyFloatConv value with
    | .ok x => .ok x
    | .error .caught => .ok (.fin default)
    | .error .overflow => .error .overflow

/-- `safe_int` from `_clean_crypto_data` (update_data.py:397-404): `None` or
`''` give the default; otherwise `int(float(value)) if '.' not in str(value)
else default`, with `ValueError`/`TypeError` giving the default while the
`OverflowError` of a huge int, or of `int(±inf)` after an exponent-form
string, escapes the handler. -/
def safe_int (value : Val) (default : ℤ) : Except FloatErr ℤ :=
  if value = .null ∨ value = .str "" then .ok default
  else if pyStrHasDot value then .ok default
  else match pyFloatConv value with
    | .ok (.fin q) => .ok (pyTrunc q)
    | .ok (.inf _) => .error .overflow
    | .error .caught => .ok default
    | .error .overflow => .error .overflow

/-- The fields required of every record (update_data.py:206 and 371). -/
def requiredFields : List String := ["id", "symbol", "name", "current_price"]

/-- `validate_api_response` (update_data.py:185-212): the response must be a
nonempty list whose first five items each contain the required fields (mere
presence, `field in item`).  The non-list branch cannot arise here because the
embedding types the decoded payload as a list. -/
def validate_api_response (data : List Rec) : Bool :=
  if data.isEmpty then false
  else (data.take 5).all (fun item => requiredFields.all (fun f => (recLookup item f).isSome))

/-- `_validate_crypto_item` (update_data.py:361-372): every required field
present and not `None`. -/
def validate_crypto_item (item : Rec) : Bool :=
  requiredFields.all (fun f => pyGet item f != Val.null)

/-- `_clean_crypto_data` (update_data.py:374-439): map a raw record to the
cleaned schema.  `now` stands for `datetime.utcnow().isoformat()`.  The safe
parsers can raise an uncaught `OverflowError`, so the result is an `Except`;
the fallible field values are computed in the order the source's dict
literal evaluates them. -/
def clean_crypto_data (now : String) (item : Rec) : Except FloatErr Rec := do
  let price ← safe_float (pyGet item "current_price") 0
  let mcap ← safe_float (pyGet item "market_cap") 0
  let vol ← safe_float (pyGet item "total_volume") 0
  let chg ← safe_float (pyGet item "price_change_percentage_24h") 0
  let hi ← safe_float (pyGet item "high_24h") 0
  let lo ← safe_float (pyGet item "low_24h") 0
  let pc ← safe_float (pyGet item "price_change_24h") 0
  let mcc ← safe_float (pyGet item "market_cap_change_24h") 0
  let mccp ← safe_float (pyGet item "market_cap_change_percentage_24h") 0
  let circ ← safe_float (pyGet item "circulating_supply") 0
  let tot ← safe_float (pyGet item "total_supply") 0
  let mx ← safe_float (pyGet item "max_supply") 0
  let ath ← safe_float (pyGet item "ath") 0
  let athc ← safe_float (pyGet item "ath_change_percentage") 0
  let atl ← safe_float (pyGet item "atl") 0
  let atlc ← safe_float (pyGet item "atl_change_percentage") 0
  let rank ← safe_int (pyGet item "market_cap_rank") 0
  pure
    [("id", .str (strLower (Val.pyStr (pyGetD item "id" (.str ""))))),
     ("symbol", .str (strLower (Val.pyStr (pyGetD item "symbol" (.str ""))))),
     ("name", .str (strTrim (Val.pyStr (pyGetD item "name" (.str ""))))),
     ("price", Val.ofPyNum price),
     ("market_cap", Val.ofPyNum mcap),
     ("volume_24h", Val.ofPyNum vol),
     ("change_24h", Val.ofPyNum (pnDiv100 chg)),
     ("last_updated", .str (now ++ "Z")),
     ("high_24h", Val.ofPyNum hi),
     ("low_24h", Val.ofPyNum lo),
     ("price_change_24h", Val.ofPyNum pc),
     ("market_cap_change_24h", Val.ofPyNum mcc),
     ("market_cap_change_percentage_24h", Val.ofPyNum mccp),
     ("circulating_supply", Val.ofPyNum circ),
     ("total_supply", Val.ofPyNum tot),
     ("max_supply", Val.ofPyNum mx),
     ("ath", Val.ofPyNum ath),
     ("ath_change_percentage", Val.ofPyNum athc),
     ("ath_date", pyGet item "ath_date"),
     ("atl", Val.ofPyNum atl),
     ("atl_change_percentage", Val.ofPyNum atlc),
     ("atl_date", pyGet item "atl_date"),
     ("image_url", .str (strTrim (Val.pyStr (pyGetD item "image" (.str ""))))),
     ("market_cap_rank", .int rank),
     ("roi", pyGet item "roi")]

/-- The completeness checks of `_calculate_quality_score` (update_data.py:456-463):
field and deduction weight. -/
def qualityChecks : List (String × ℚ) :=
  [("current_price", 5), ("market_cap", 10), ("total_volume", 5),
   ("price_change_percentage_24h", 5), ("image", 2), ("market_cap_rank", 3)]

/-- The deduction loop of `_calculate_quality_score`: subtract each check's
weight when the field is falsy (`if not item.get(field)`). -/
def scoreFold (item : Rec) (checks : List (String × ℚ)) (start : ℚ) : ℚ :=
  checks.foldl (fun s c => if (pyGet item c.1).truthy then s else s - c.2) start

/-- `_calculate_quality_score` (update_data.py:441-469): start at 100, subtract
weights for falsy fields, clamp below at 0 (`max(0, score)`). -/
def calculate_quality_score (item : Rec) : ℚ :=
  max 0 (scoreFold item qualityChecks 100)

/-- One accepted record of `transform_data` (update_data.py:330-338): the
cleaned record plus processing metadata.  An uncaught `OverflowError` raised
by a safe parser inside `_clean_crypto_data` propagates out of the record's
processing. -/
def transform_one (now : String) (item : Rec) : Except FloatErr Rec := do
  let c ← clean_crypto_data now item
  let c := setKey c "last_updated_from_api" (pyGet item "last_updated")
  let c := setKey c "processed_at" (.str (now ++ "Z"))
  pure (setKey c "data_quality_score" (.float (calculate_quality_score item)))

/-- Whether a record's per-item processing completes without an uncaught
error. -/
def cleanSucceeds (now : String) (item : Rec) : Bool :=
  match transform_one now item with
  | .ok _ => true
  | .error _ => false

/-- The successfully transformed record, if any. -/
def okValue (e : Except FloatErr Rec) : Option Rec :=
  match e with
  | .ok t => some t
  | .error _ => none

/-- The loop of `transform_data` (update_data.py:323-345), carrying the
running index.  A record failing required-field validation is skipped with
one error entry recorded (here: the index; the source appends one message
string per skipped record).  A record whose processing raises — Python
`float()`/`int()` raise an uncaught `OverflowError` on magnitudes beyond
double range — is caught by the per-item `except` and likewise skipped with
one error entry. -/
def transform_go (now : String) : ℕ → List Rec → List Rec × List ℕ
  | _, [] => ([], [])
  | i, item :: rest =>
      let p := transform_go now (i + 1) rest
      if validate_crypto_item item then
        match transform_one now item with
        | .ok tr => (tr :: p.1, p.2)
        | .error _ => (p.1, i :: p.2)
      else (p.1, i :: p.2)

/-- `transform_data` (update_data.py:303-359): accepted records and the error
list. -/
def transform_data (now : String) (data : List Rec) : List Rec × List ℕ :=
  transform_go now 0 data

/-- Remove a set of keys from a record (used to state "removing optional
fields" in the quality-score claims). -/
def dropKeys (ks : List String) (r : Rec) : Rec :=
  r.filter (fun p => !(ks.contains p.1))

/-- Total deduction the quality-score loop makes on `item` for the checks in
`checks`. -/
def penalty (item : Rec) (checks : List (String × ℚ)) : ℚ :=
  ((checks.filter (fun c => !(pyGet item c.1).truthy)).map (fun c => c.2)).sum

/-- `MAX_RETRIES` (update_data.py:76). -/
def MAX_RETRIES : ℕ := 5

/-- Exceptions the embedding distinguishes. -/
inductive PyErr where
  | nameError
  | typeError
  | fetchFailed
deriving DecidableEq, Repr

/-- Net outcome of attempt `a` against the market source: `some d` when the
HTTP call succeeds and `validate_api_response` accepts its payload `d`;
`none` when the call errors or the shape check fails (both are caught by the
same `except` and retried, update_data.py:287). -/
def attempt_result (src : ℕ → Option (List Rec)) (a : ℕ) : Option (List Rec) :=
  match src a with
  | none => none
  | some d => if validate_api_response d then some d else none

/-- The retry loop of `fetch_crypto_data` (update_data.py:260-297), started at
attempt `a` with `remaining` attempts left: returns the outcome and the number
of remote calls made.  On the last failed attempt the error is re-raised. -/
def fetch_go (src : ℕ → Option (List Rec)) : ℕ → ℕ → Except PyErr (List Rec) × ℕ
  | _, 0 => (.error .fetchFailed, 0)
  | a, remaining + 1 =>
      match attempt_result src a with
      | some d => (.ok d, 1)
      | none =>
          if remaining = 0 then (.error .fetchFailed, 1)
          else
            let p := fetch_go src (a + 1) remaining
            (p.1, p.2 + 1)

/-- Observables of one extraction (update_data.py:214-301). -/
structure FetchResult where
  result : Except PyErr (List Rec)
  remoteCalls : ℕ
  cacheWrite : Option (List Rec)
deriving Repr

/-- `fetch_crypto_data` (update_data.py:214-301): a cached raw snapshot is
returned without any remote call; otherwise the retry loop runs, and the raw
list is written to the `crypto_data_latest` cache key only on the success
path (update_data.py:278), just before returning. -/
def fetch_crypto_data (cached : Option (List Rec)) (src : ℕ → Option (List Rec)) :
    FetchResult :=
  match cached with
  | some d => ⟨.ok d, 0, none⟩
  | none =>
      let p := fetch_go src 0 MAX_RETRIES
      ⟨p.1, p.2, match p.1 with | .ok d => some d | .error _ => none⟩

/-- Python `s.lower()` on an arbitrary value: `none` models the
`AttributeError` raised on non-strings. -/
def pyLower : Val → Option String
  | .str s => some (strLower s)
  | _ => none

/-- Python `s.upper()` on an arbitrary value. -/
def pyUpper : Val → Option String
  | .str s => some (strUpper s)
  | _ => none

/-- The record `update_database` serializes for one batch item
(update_data.py:512-536), reading raw-API field names with `item.get(k, 0)` /
`item.get(k, '')`; `cid` is the `crypto_id` already read from the item and
`now` stands for `datetime.utcnow().isoformat()`.  The JSON text stored in the
cache is modelled by the field map itself.  `none` models the
`AttributeError` of `.upper()` on a non-string symbol. -/
def serializeSnapshot (now : String) (cid : Val) (item : Rec) : Option Rec := do
  let sym ← pyUpper (pyGetD item "symbol" (.str ""))
  pure [("id", cid),
        ("symbol", .str sym),
        ("name", pyGetD item "name" (.str "")),
        ("current_price", pyGetD item "current_price" (.int 0)),
        ("price_change_percentage_24h", pyGetD item "price_change_percentage_24h" (.int 0)),
        ("market_cap", pyGetD item "market_cap" (.int 0)),
        ("total_volume", pyGetD item "total_volume" (.int 0)),
        ("image", pyGetD item "image" (.str "")),
        ("last_updated", pyGetD item "last_updated" (.str now)),
        ("high_24h", pyGetD item "high_24h" (.int 0)),
        ("low_24h", pyGetD item "low_24h" (.int 0)),
        ("price_change_24h", pyGetD item "price_change_24h" (.int 0)),
        ("market_cap_change_24h", pyGetD item "market_cap_change_24h" (.int 0)),
        ("market_cap_change_percentage_24h",
           pyGetD item "market_cap_change_percentage_24h" (.int 0)),
        ("circulating_supply", pyGetD item "circulating_supply" (.int 0)),
        ("total_supply", pyGetD item "total_supply" (.int 0)),
        ("max_supply", pyGetD item "max_supply" (.int 0)),
        ("ath", pyGetD item "ath" (.int 0)),
        ("ath_change_percentage", pyGetD item "ath_change_percentage" (.int 0)),
        ("ath_date", pyGetD item "ath_date" (.str "")),
        ("atl", pyGetD item "atl" (.int 0)),
        ("atl_change_percentage", pyGetD item "atl_change_percentage" (.int 0)),
        ("atl_date", pyGetD item "atl_date" (.str ""))]

/-- The `redis_data` mapping one batch builds (update_data.py:502-536): one
entry per item with a truthy id, keyed `crypto:price:` plus the lower-cased
id; items with a falsy id are skipped (`continue`).  `none` models an
exception inside the batch body (`.lower()`/`.upper()` on a non-string),
caught by the per-batch `except`. -/
def buildRedisData (now : String) (batch : List Rec) : Option (List (String × Rec)) :=
  batch.foldl
    (fun acc item => do
      let rd ← acc
      let cid := pyGet item "id"
      if !cid.truthy then pure rd
      else do
        let low ← pyLower cid
        let sv ← serializeSnapshot now cid item
        pure (setKey rd ("crypto:price:" ++ low) sv))
    (some [])

/-- Retry budget of `_store_in_redis` (update_data.py:590). -/
def redisStoreRetries : ℕ := 3

/-- `_store_in_redis` (update_data.py:575-616): `False` when the client is not
initialised; otherwise the pipelined write is attempted up to three times
(`ok a` says whether attempt `a` succeeds) and the result is whether some
attempt succeeded — the loop returns `True` at the first success and `False`
after the last failure. -/
def store_in_redis (redisUp : Bool) (ok : ℕ → Bool) : Bool :=
  if !redisUp then false
  else (List.range redisStoreRetries).any ok

/-- Observables of the load stage (update_data.py:471-573). -/
structure LoadResult where
  successCount : ℕ
  failedCount : ℕ
  processedBatches : ℕ
  writes : List (String × Rec)
deriving Repr

/-- Combine the tallies of consecutive batches. -/
def LoadResult.append (x y : LoadResult) : LoadResult :=
  ⟨x.successCount + y.successCount, x.failedCount + y.failedCount,
   x.processedBatches + y.processedBatches, x.writes ++ y.writes⟩

/-- `total_batches` (update_data.py:491): the source's own ceiling formula. -/
def numBatches (bs n : ℕ) : ℕ := (n + bs - 1) / bs

/-- The batches `data[i:i+batch_size]` for `i in range(0, len(data),
batch_size)` (update_data.py:496-498). -/
def chunks {α : Type} (bs : ℕ) (l : List α) : List (List α) :=
  (List.range (numBatches bs l.length)).map (fun b => (l.drop (b * bs)).take bs)

/-- One iteration of the batch loop (update_data.py:496-554): an exception
while building the mapping, or an unsuccessful `_store_in_redis`, adds the
whole batch to the failed tally; success adds it to the success tally and the
mapping to the cache writes.  Either way the loop continues. -/
def processBatch (redisUp : Bool) (storeOk : ℕ → ℕ → Bool) (now : String)
    (bn : ℕ) (batch : List Rec) : LoadResult :=
  match buildRedisData now batch with
  | none => ⟨0, batch.length, 1, []⟩
  | some rd =>
      if store_in_redis redisUp (storeOk bn) then ⟨batch.length, 0, 1, rd⟩
      else ⟨0, batch.length, 1, []⟩

/-- The batch loop over a list of batches, numbered from `bn`
(`enumerate(..., 1)` makes batch numbers 1-based). -/
def loadBatches (redisUp : Bool) (storeOk : ℕ → ℕ → Bool) (now : String) :
    ℕ → List (List Rec) → LoadResult
  | _, [] => ⟨0, 0, 0, []⟩
  | bn, b :: rest =>
      (processBatch redisUp storeOk now bn b).append
        (loadBatches redisUp storeOk now (bn + 1) rest)

/-- `update_database` (update_data.py:471-573) with the local `batch_size`
made a parameter: empty input returns immediately; otherwise every batch is
processed in order. -/
def update_database_with (bs : ℕ) (redisUp : Bool) (storeOk : ℕ → ℕ → Bool)
    (now : String) (data : List Rec) : LoadResult :=
  if data.isEmpty then ⟨0, 0, 0, []⟩
  else loadBatches redisUp storeOk now 1 (chunks bs data)

/-- The fixed `batch_size = 100` of `update_database` (update_data.py:490). -/
def batch_size : ℕ := 100

/-- `update_database` as the source runs it. -/
def update_database (redisUp : Bool) (storeOk : ℕ → ℕ → Bool) (now : String)
    (data : List Rec) : LoadResult :=
  update_database_with batch_size redisUp storeOk now data

/-- Aggregate market statistics (update_data.py:697-711). -/
structure MarketStats where
  totalMarketCap : ℚ
  totalVolume24h : ℚ
  active : ℕ
  largeCap : ℕ
  midCap : ℕ
  smallCap : ℕ
deriving DecidableEq, Repr

/-- Python `v > n` against a number: `TypeError` (`none`) unless `v` is
numeric. -/
def pyGT (v : Val) (n : ℚ) : Option Bool :=
  (v.asNum?).map (fun q => decide (n < q))

/-- Python `v <= n` against a number. -/
def pyLE (v : Val) (n : ℚ) : Option Bool :=
  (v.asNum?).map (fun q => decide (q ≤ n))

/-- The chained comparison `lo < v <= hi`: the first comparison runs first and
short-circuits the second when false. -/
def pyBetween (v : Val) (lo hi : ℚ) : Option Bool :=
  match pyGT v lo with
  | none => none
  | some false => some false
  | some true => pyLE v hi

/-- `len([item for item in data if f(item)])`: `none` when the predicate
raises on some element. -/
def pyCount (data : List Rec) (f : Rec → Option Bool) : Option ℕ :=
  data.foldr
    (fun r acc => do
      let b ← f r
      let n ← acc
      pure (if b then n + 1 else n))
    (some 0)

/-- `sum(generator)`: `none` when some summand is not numeric (`TypeError`). -/
def pySum (l : List Val) : Option ℚ :=
  l.foldr
    (fun v acc => do
      let q ← v.asNum?
      let a ← acc
      pure (q + a))
    (some 0)

/-- The aggregate computation in the try body of update_data.py's
`update_market_stats` (lines 691-701): total market cap and volume are
summed over records whose field is truthy; the active count and the
capitalization tiers compare `item.get(field, 0)` against fixed thresholds
(`small_cap` is `<= 1_000_000_000` with no lower bound).  `none` models a
`TypeError` escaping one of the comparisons, e.g. when a record carries an
explicit `None` market cap.  Note this body is dead code in update_data.py —
the stage's unbound-client guard raises `NameError` first (see C2) — and is
kept as the try body that `update_market_stats_with` models. -/
def computeMarketStats (data : List Rec) : Option MarketStats := do
  let tmc ← pySum ((data.filter (fun r => (pyGet r "market_cap").truthy)).map
    (fun r => pyGetD r "market_cap" (.int 0)))
  let tvol ← pySum ((data.filter (fun r => (pyGet r "total_volume").truthy)).map
    (fun r => pyGetD r "total_volume" (.int 0)))
  let active ← pyCount data (fun r => pyGT (pyGetD r "market_cap" (.int 0)) 0)
  let large ← pyCount data (fun r => pyGT (pyGetD r "market_cap" (.int 0)) 10000000000)
  let mid ← pyCount data
    (fun r => pyBetween (pyGetD r "market_cap" (.int 0)) 1000000000 10000000000)
  let small ← pyCount data (fun r => pyLE (pyGetD r "market_cap" (.int 0)) 1000000000)
  pure ⟨tmc, tvol, active, large, mid, small⟩

/-- The aggregate computation of the updated variant
(update_market_stats_updated.py:20-28), the one a running stage actually
reaches (its guard reads the bound `redis_client`): identical to
`computeMarketStats` except that `small_cap` is the chained comparison
`0 < item.get('market_cap', 0) <= 1_000_000_000` (line 28), which leaves
records with zero or missing market caps in no tier. -/
def computeMarketStatsUpdated (data : List Rec) : Option MarketStats := do
  let tmc ← pySum ((data.filter (fun r => (pyGet r "market_cap").truthy)).map
    (fun r => pyGetD r "market_cap" (.int 0)))
  let tvol ← pySum ((data.filter (fun r => (pyGet r "total_volume").truthy)).map
    (fun r => pyGetD r "total_volume" (.int 0)))
  let active ← pyCount data (fun r => pyGT (pyGetD r "market_cap" (.int 0)) 0)
  let large ← pyCount data (fun r => pyGT (pyGetD r "market_cap" (.int 0)) 10000000000)
  let mid ← pyCount data
    (fun r => pyBetween (pyGetD r "market_cap" (.int 0)) 1000000000 10000000000)
  let small ← pyCount data
    (fun r => pyBetween (pyGetD r "market_cap" (.int 0)) 0 1000000000)
  pure ⟨tmc, tvol, active, large, mid, small⟩

/-- State of the module-level name `supabase_client` when
`update_market_stats` runs. -/
inductive SupabaseBinding where
  | unbound
  | boundFalsy
  | bound
deriving DecidableEq, Repr

/-- `update_market_stats` (update_data.py:673-723) over an explicit client
binding.  When the name is unbound, evaluating the guard
`if not supabase_client:` (line 684, before the `try`) raises `NameError`.
A falsy client returns early.  Otherwise the `try` body computes the
statistics and inserts them (`insertOk` says whether the insert reported
success; a reported error is only logged); `except Exception` (line 722)
absorbs every error raised inside the body, so that branch always returns
normally.  The returned option is what was successfully stored. -/
def update_market_stats_with (binding : SupabaseBinding) (insertOk : Bool)
    (data : List Rec) : Except PyErr (Option MarketStats) :=
  match binding with
  | .unbound => .error .nameError
  | .boundFalsy => .ok none
  | .bound =>
      match computeMarketStats data with
      | none => .ok none
      | some s => .ok (if insertOk then some s else none)

/-- update_data.py defines no module-level `supabase_client` and imports
none (its imports are logging, asyncio, json, os, sys, time, pathlib,
datetime, typing, httpx, dotenv and redis.asyncio), so the name is unbound
when line 684 runs. -/
def supabase_client_binding : SupabaseBinding := .unbound

/-- `update_market_stats` as the module actually runs it. -/
def update_market_stats (insertOk : Bool) (data : List Rec) :
    Except PyErr (Option MarketStats) :=
  update_market_stats_with supabase_client_binding insertOk data

/-- Observables of one `run_update` cycle (update_data.py:619-671). -/
structure CycleResult where
  outcome : Except PyErr Unit
  load : Option LoadResult
  statsStored : Option MarketStats

/-- `run_update` (update_data.py:619-671): extract, then stop silently on an
empty raw list; transform, then stop silently on an empty accepted list;
load; then update the market statistics from the RAW data (line 656).  The
surrounding `except` logs any exception and re-raises it, so an error from
the statistics stage escapes `run_update`. -/
def run_update (cached : Option (List Rec)) (src : ℕ → Option (List Rec))
    (redisUp : Bool) (storeOk : ℕ → ℕ → Bool) (insertOk : Bool) (now : String) :
    CycleResult :=
  match (fetch_crypto_data cached src).result with
  | .error e => ⟨.error e, none, none⟩
  | .ok data =>
      if data.isEmpty then ⟨.ok (), none, none⟩
      else
        let td := (transform_data now data).1
        if td.isEmpty then ⟨.ok (), none, none⟩
        else
          let L := update_database redisUp storeOk now td
          match update_market_stats insertOk data with
          | .error e => ⟨.error e, some L, none⟩
          | .ok s => ⟨.ok (), some L, s⟩

/-- A raw CoinGecko record as the markets endpoint returns it (2.5 percent is
the float `5/2`). -/
def rawBitcoin : Rec :=
  [("id", .str "bitcoin"), ("symbol", .str "btc"), ("name", .str "Bitcoin"),
   ("current_price", .int 50000), ("market_cap", .int 950000000000),
   ("total_volume", .int 30000000000), ("price_change_percentage_24h", .float (5 / 2)),
   ("image", .str "https://img"), ("market_cap_rank", .int 1),
   ("last_updated", .str "2023-01-01T00:00:00Z")]

/-- The snapshot the transformation stage produces from `rawBitcoin` (its
cleaning succeeds, so the fallback branch is unreachable). -/
def trBitcoin : Rec := (okValue (transform_one "T" rawBitcoin)).getD []

/-- A minimal valid raw record. -/
def mkCoin (id : String) (p : ℤ) : Rec :=
  [("id", .str id), ("symbol", .str id), ("name", .str id), ("current_price", .int p)]

/-- Five accepted snapshots for the batching scenario. -/
def raw5 : List Rec :=
  [mkCoin "a" 1, mkCoin "b" 2, mkCoin "c" 3, mkCoin "d" 4, mkCoin "e" 5]

/-- A raw record whose market cap is an explicit JSON `null`. -/
def badCapRec : Rec :=
  [("id", .str "x"), ("symbol", .str "x"), ("name", .str "x"),
   ("current_price", .int 1), ("market_cap", Val.null)]

/-- Raw records for the statistics witness: a large cap, a mid cap, a missing
cap and a zero cap. -/
def statsData : List Rec :=
  [[("id", .str "l"), ("market_cap", .int 20000000000), ("total_volume", .int 7)],
   [("id", .str "m"), ("market_cap", .int 5000000000)],
   [("id", .str "n"), ("current_price", .int 3)],
   [("id", .str "z"), ("market_cap", .int 0)]]

/-- A raw record with every required field present and non-null whose market
cap is an int beyond double range: `float(10^400)` raises `OverflowError`. -/
def overflowRec : Rec :=
  [("id", .str "huge"), ("symbol", .str "h"), ("name", .str "H"),
   ("current_price", .int 1), ("market_cap", .int (10 ^ 400))]

/-- A raw record with a zero market cap. -/
def zeroCapRec : Rec :=
  [("id", .str "z"), ("symbol", .str "z"), ("name", .str "z"),
   ("current_price", .int 1), ("market_cap", .int 0)]

/-- Transformation witness data: five clean records and one whose id is an
explicit null. -/
def wit4data : List Rec :=
  raw5 ++ [[("id", Val.null), ("symbol", .str "x"), ("name", .str "x"),
    ("current_price", .int 1)]]

/-- A market source failing the first two calls and succeeding on the third. -/
def w7src : ℕ → Option (List Rec) :=
  fun a => if a < 2 then none else some [rawBitcoin]

/-- Spec-side reading of a record's numeric field: the stored number, 0 when
the field is absent or not a number. -/
def capVal (field : String) (r : Rec) : ℚ :=
  ((recLookup r field).bind Val.asNum?).getD 0

/-- Spec-side rendering of "sum across all records with a non-null value for
that field". -/
def specSumNonNull (field : String) (data : List Rec) : ℚ :=
  ((data.filter (fun r => pyGet r field != Val.null)).map (capVal field)).sum
/-- C1: the load stage writes under `crypto:price:` plus the lower-cased id,
but serializes raw-API field names that the transformed snapshot no longer
carries, so the stored current price, 24h volume, 24h change and image are
the defaults 0/0/0/`''` rather than the transformed snapshot's values. -/
theorem claim1_load_serializes_stale_field_names :
    pyGet trBitcoin "price" = .float 50000 ∧
    pyGet trBitcoin "volume_24h" = .float 30000000000 ∧
    pyGet trBitcoin "change_24h" = .float (1 / 40) ∧
    pyGet trBitcoin "image_url" = .str "https://img" ∧
    (update_database true (fun _ _ => true) "T" [trBitcoin]).writes.map (fun p => p.1) =
      ["crypto:price:bitcoin"] ∧
    (update_database true (fun _ _ => true) "T" [trBitcoin]).writes.map
        (fun p => (pyGet p.2 "current_price", pyGet p.2 "total_volume",
          pyGet p.2 "price_change_percentage_24h", pyGet p.2 "image")) =
      [(.int 0, .int 0, .int 0, .str "")] := by
  refine ⟨?_, ?_, ?_, ?_, rfl, rfl⟩
  · have h : pyGet trBitcoin "price" = .float ((50000 : ℤ) : ℚ) := rfl
    rw [h]; norm_num
  · have h : pyGet trBitcoin "volume_24h" = .float ((30000000000 : ℤ) : ℚ) := rfl
    rw [h]; norm_num
  · have h : pyGet trBitcoin "change_24h" = .float ((5 : ℚ) / 2 / 100) := rfl
    rw [h]; norm_num
  · rfl

/-- C2: exceptions raised inside the statistics stage's `try` body are indeed
absorbed, but the stage's client guard evaluates the unbound name
`supabase_client` and raises `NameError` before the `try` begins, and
`run_update` re-raises it, so a cycle that reaches the statistics stage does
not complete without raising. -/
theorem claim2_stats_stage_raises_nameerror :
    (∀ (ok : Bool) (data : List Rec), ∃ r,
        update_market_stats_with .bound ok data = .ok r) ∧
    update_market_stats true [rawBitcoin] = .error .nameError ∧
    (run_update (some [rawBitcoin]) (fun _ => none) true (fun _ _ => true) true
        "T").outcome = .error .nameError := by
  refine ⟨?_, rfl, rfl⟩
  intro ok data
  cases h : computeMarketStats data with
  | none => exact ⟨none, by simp [update_market_stats_with, h]⟩
  | some s => exact ⟨if ok then some s else none, by simp [update_market_stats_with, h]⟩

/-- C3: `safe_float` parses decimal and exponent strings and both parsers
return the configured default, without raising, on `None`, empty and
non-numeric input.  But the claim fails twice on numeric-looking input:
`safe_int` returns the default for any value whose text contains a decimal
point, so "123.0" yields 0 instead of 123; and values past the double range
escape the parsers own handlers as an uncaught `OverflowError`
(`int(float("1e999"))` and `float(10^400)`). -/
theorem claim3_safe_int_defaults_on_decimal_strings :
    safe_float (.str "123.0") 0 = .ok (.fin 123) ∧
    safe_int (.str "123.0") 0 = .ok 0 ∧
    safe_int (.str "123") 0 = .ok 123 ∧
    safe_float (.str "1e5") 0 = .ok (.fin 100000) ∧
    safe_int (.str "1e999") 0 = .error .overflow ∧
    safe_float (.int (10 ^ 400)) 0 = .error .overflow ∧
    safe_float (.str "abc") 7 = .ok (.fin 7) ∧
    safe_int (.str "abc") 7 = .ok 7 ∧
    safe_float Val.null 7 = .ok (.fin 7) ∧
    safe_int Val.null 7 = .ok 7 ∧
    safe_float (.str "") 9 = .ok (.fin 9) ∧
    safe_int (.str "") 9 = .ok 9 := by
  refine ⟨?_, rfl, ?_, ?_, rfl, rfl, rfl, rfl, rfl, rfl, rfl, rfl⟩
  · have h : safe_float (.str "123.0") 0 = .ok (.fin (mantVal false 1230 (-1))) := rfl
    rw [h]
    norm_num [mantVal, ratPow10]
  · have h : safe_int (.str "123") 0 = .ok (pyTrunc (mantVal false 123 0)) := rfl
    rw [h]
    have hm : mantVal false 123 0 = ((123 : ℕ) : ℚ) := by norm_num [mantVal, ratPow10]
    rw [hm]
    norm_num [pyTrunc, Rat.num_natCast, Rat.den_natCast]
  · have h : safe_float (.str "1e5") 0 = .ok (.fin (mantVal false 1 5)) := rfl
    rw [h]
    have ht : Int.toNat 5 = 5 := rfl
    norm_num [mantVal, ratPow10, ht]

theorem transform_go_spec (now : String) :
    ∀ (data : List Rec) (i : ℕ),
      (transform_go now i data).1 =
        (data.filter (fun r => validate_crypto_item r)).filterMap
          (fun r => okValue (transform_one now r)) ∧
      (transform_go now i data).2.length =
        data.countP (fun r => !(validate_crypto_item r && cleanSucceeds now r)) := by
  intro data
  induction data with
  | nil => intro i; simp [transform_go]
  | cons item rest ih =>
      intro i
      by_cases h : validate_crypto_item item
      · cases ht : transform_one now item with
        | ok tr =>
            have hcs : cleanSucceeds now item = true := by simp [cleanSucceeds, ht]
            simp [transform_go, h, ht, hcs, List.filter_cons, List.filterMap_cons,
              List.countP_cons, okValue, (ih (i + 1)).1, (ih (i + 1)).2]
        | error e =>
            have hcs : cleanSucceeds now item = false := by simp [cleanSucceeds, ht]
            simp [transform_go, h, ht, hcs, List.filter_cons, List.filterMap_cons,
              List.countP_cons, okValue, (ih (i + 1)).1, (ih (i + 1)).2]
      · simp [transform_go, h, List.filter_cons, List.countP_cons,
          (ih (i + 1)).1, (ih (i + 1)).2]

theorem countP_congr_mem (l : List Rec) (p q : Rec → Bool)
    (h : ∀ r ∈ l, p r = q r) : l.countP p = l.countP q := by
  induction l with
  | nil => rfl
  | cons a t ih =>
      simp only [List.countP_cons, h a (List.mem_cons_self a t),
        ih (fun r hr => h r (List.mem_cons_of_mem a hr))]

/-- C4 (amended): the transformation stage's output is the cleaned image of
exactly the records that pass required-field validation AND whose
per-record processing completes — Python `float()`/`int()` raise an
uncaught `OverflowError` on magnitudes beyond double range, which the
stage's per-item `except` catches and records as an error — with one error
entry per excluded record.  When no valid record triggers that overflow
(`hclean`), the frozen form holds: the only exclusions are records with a
missing or null required field, and the error count equals their number. -/
theorem claim4_transform_excludes_invalid (now : String) (data : List Rec)
    (hclean : ∀ r ∈ data, validate_crypto_item r = true → cleanSucceeds now r = true) :
    (transform_data now data).1 =
      (data.filter (fun r => requiredFields.all (fun f => pyGet r f != Val.null))).filterMap
        (fun r => okValue (transform_one now r)) ∧
    (transform_data now data).2.length =
      data.countP (fun r => !(validate_crypto_item r && cleanSucceeds now r)) ∧
    (transform_data now data).2.length =
      data.countP (fun r => !(requiredFields.all (fun f => pyGet r f != Val.null))) := by
  have hs := transform_go_spec now data 0
  refine ⟨hs.1, hs.2, ?_⟩
  calc (transform_data now data).2.length
      = data.countP (fun r => !(validate_crypto_item r && cleanSucceeds now r)) := hs.2
    _ = data.countP (fun r => !(requiredFields.all (fun f => pyGet r f != Val.null))) := ?_
  apply countP_congr_mem
  intro r hr
  by_cases hv : validate_crypto_item r
  · have hcs := hclean r hr hv
    have hv2 : requiredFields.all (fun f => pyGet r f != Val.null) = true := hv
    rw [hv, hcs, hv2]
    rfl
  · have hvf : validate_crypto_item r = false := by
      revert hv
      cases validate_crypto_item r <;> simp
    have hv2 : requiredFields.all (fun f => pyGet r f != Val.null) = false := hvf
    rw [hvf, hv2]
    rfl

/-- C4, counterexample to the claim as frozen: a record with every required
field present and non-null, but a market cap of `10^400`, is still excluded
from the output — `float(10^400)` raises `OverflowError`, which
`safe_float`'s handler does not catch and the per-item `except` records as
an error — so the error count (1) exceeds the number of records with a
missing or null required field (0). -/
theorem claim4_counterexample :
    validate_crypto_item overflowRec = true ∧
    (transform_data "T" [overflowRec]).1 = [] ∧
    (transform_data "T" [overflowRec]).2.length = 1 ∧
    ([overflowRec] : List Rec).countP
      (fun r => !(requiredFields.all (fun f => pyGet r f != Val.null))) = 0 :=
  ⟨rfl, rfl, rfl, rfl⟩

theorem claim4_witness :
    (∀ r ∈ wit4data, validate_crypto_item r = true → cleanSucceeds "T" r = true) ∧
    ((transform_data "T" wit4data).1 =
      (wit4data.filter
        (fun r => requiredFields.all (fun f => pyGet r f != Val.null))).filterMap
        (fun r => okValue (transform_one "T" r)) ∧
    (transform_data "T" wit4data).2.length =
      wit4data.countP (fun r => !(validate_crypto_item r && cleanSucceeds "T" r)) ∧
    (transform_data "T" wit4data).2.length =
      wit4data.countP
        (fun r => !(requiredFields.all (fun f => pyGet r f != Val.null)))) :=
  ⟨by decide, claim4_transform_excludes_invalid "T" wit4data (by decide)⟩

theorem scoreFold_eq_sub (item : Rec) :
    ∀ (checks : List (String × ℚ)) (a : ℚ),
      scoreFold item checks a = a - penalty item checks := by
  intro checks
  induction checks with
  | nil => intro a; simp [scoreFold, penalty]
  | cons c t ih =>
      intro a
      by_cases h : (pyGet item c.1).truthy
      · simp [scoreFold, penalty, List.filter_cons, h] at ih ⊢
        exact ih a
      · simp [scoreFold, penalty, List.filter_cons, h] at ih ⊢
        rw [ih (a - c.2)]
        ring
theorem penalty_nonneg (item : Rec) (checks : List (String × ℚ))
    (hw : ∀ c ∈ checks, (0 : ℚ) ≤ c.2) : 0 ≤ penalty item checks := by
  apply List.sum_nonneg
  intro x hx
  simp only [penalty, List.mem_map, List.mem_filter] at hx
  obtain ⟨c, ⟨hc, _⟩, rfl⟩ := hx
  exact hw c hc
theorem penalty_le_total (item : Rec) (checks : List (String × ℚ))
    (hw : ∀ c ∈ checks, (0 : ℚ) ≤ c.2) :
    penalty item checks ≤ (checks.map (fun c => c.2)).sum := by
  induction checks with
  | nil => simp [penalty]
  | cons c t ih =>
      have hc : (0 : ℚ) ≤ c.2 := hw c (List.mem_cons_self c t)
      have ht : ∀ x ∈ t, (0 : ℚ) ≤ x.2 := fun x hx => hw x (List.mem_cons_of_mem c hx)
      by_cases h : (pyGet item c.1).truthy
      · simp only [penalty, List.filter_cons, h, Bool.not_true, List.map_cons, List.sum_cons]
        calc penalty item t ≤ (t.map (fun c => c.2)).sum := ih ht
          _ ≤ c.2 + (t.map (fun c => c.2)).sum := le_add_of_nonneg_left hc
      · simp only [penalty, List.filter_cons, h, Bool.not_false, List.map_cons, List.sum_cons]
        exact add_le_add_left (ih ht) c.2
theorem penalty_mono (item item2 : Rec) (checks : List (String × ℚ))
    (hw : ∀ c ∈ checks, (0 : ℚ) ≤ c.2)
    (h : ∀ c ∈ checks, (pyGet item c.1).truthy = false →
      (pyGet item2 c.1).truthy = false) :
    penalty item checks ≤ penalty item2 checks := by
  induction checks with
  | nil => simp [penalty]
  | cons c t ih =>
      have hc : (0 : ℚ) ≤ c.2 := hw c (List.mem_cons_self c t)
      have ht : ∀ x ∈ t, (0 : ℚ) ≤ x.2 := fun x hx => hw x (List.mem_cons_of_mem c hx)
      have h2 : ∀ x ∈ t, (pyGet item x.1).truthy = false →
          (pyGet item2 x.1).truthy = false :=
        fun x hx => h x (List.mem_cons_of_mem c hx)
      by_cases h1 : (pyGet item c.1).truthy
      · have step : penalty item2 t ≤ penalty item2 (c :: t) := by
          by_cases h3 : (pyGet item2 c.1).truthy
          · simp [penalty, List.filter_cons, h3]
          · simp only [penalty, List.filter_cons, h3, Bool.not_false, List.map_cons,
              List.sum_cons]
            exact le_add_of_nonneg_left hc
        calc penalty item (c :: t) = penalty item t := by
              simp [penalty, List.filter_cons, h1]
          _ ≤ penalty item2 t := ih ht h2
          _ ≤ penalty item2 (c :: t) := step
      · have h3 : (pyGet item2 c.1).truthy = false :=
          h c (List.mem_cons_self c t) (by simp [h1])
        simp only [penalty, List.filter_cons, h1, h3, Bool.not_false, List.map_cons,
          List.sum_cons]
        exact add_le_add_left (ih ht h2) c.2
theorem recLookup_cons (p : String × Val) (t : Rec) (k : String) :
    recLookup (p :: t) k = if p.1 = k then some p.2 else recLookup t k := by
  simp only [recLookup, List.find?_cons]
  by_cases h : p.1 = k
  · simp [h]
  · have hb : (p.1 == k) = false := beq_eq_false_iff_ne.mpr h
    simp [hb, h]
theorem dropKeys_recLookup (ks : List String) (r : Rec) (k : String) :
    recLookup (dropKeys ks r) k = if k ∈ ks then none else recLookup r k := by
  induction r with
  | nil => by_cases h : k ∈ ks <;> simp [recLookup, dropKeys, h]
  | cons p t ih =>
      by_cases hp : p.1 ∈ ks
      · have hd : dropKeys ks (p :: t) = dropKeys ks t := by
          simp [dropKeys, List.filter_cons, hp]
        rw [hd, ih, recLookup_cons]
        by_cases hk : k ∈ ks
        · simp [hk]
        · have hne : ¬ p.1 = k := fun he => hk (he ▸ hp)
          simp [hk, hne]
      · have hd : dropKeys ks (p :: t) = p :: dropKeys ks t := by
          simp [dropKeys, List.filter_cons, hp]
        rw [hd, recLookup_cons, recLookup_cons]
        by_cases hk : p.1 = k
        · subst hk
          simp [hp]
        · simp [hk, ih]
theorem dropKeys_pyGet (ks : List String) (r : Rec) (k : String) :
    pyGet (dropKeys ks r) k = if k ∈ ks then Val.null else pyGet r k := by
  unfold pyGet
  rw [dropKeys_recLookup]
  by_cases h : k ∈ ks <;> simp [h]
/-- C9: removing any set of fields from a record can only lower (never raise)
its quality score, and every record's quality score lies in [0, 100]. -/
theorem claim9_quality_monotone_bounded (r : Rec) (ks : List String) :
    calculate_quality_score (dropKeys ks r) ≤ calculate_quality_score r ∧
    0 ≤ calculate_quality_score r ∧ calculate_quality_score r ≤ 100 := by
  have hw : ∀ c ∈ qualityChecks, (0 : ℚ) ≤ c.2 := by
    intro c hc
    fin_cases hc <;> norm_num
  have hmono : penalty r qualityChecks ≤ penalty (dropKeys ks r) qualityChecks := by
    apply penalty_mono r (dropKeys ks r) qualityChecks hw
    intro c hc ht
    rw [dropKeys_pyGet]
    by_cases h : c.1 ∈ ks
    · simp [h, Val.truthy]
    · simpa [h] using ht
  have hnn := penalty_nonneg r qualityChecks hw
  unfold calculate_quality_score
  rw [scoreFold_eq_sub, scoreFold_eq_sub]
  refine ⟨max_le_max le_rfl (by linarith), le_max_left _ _, ?_⟩
  exact max_le (by norm_num) (by linarith)
/-- C10: the six deduction weights sum to 30, so every record's quality score
is at least 70 and the `max(0, score)` floor never binds. -/
theorem claim10_quality_score_at_least_70 (item : Rec) :
    70 ≤ calculate_quality_score item ∧
    calculate_quality_score item = 100 - penalty item qualityChecks ∧
    (qualityChecks.map (fun c => c.2)).sum = 30 := by
  have hw : ∀ c ∈ qualityChecks, (0 : ℚ) ≤ c.2 := by
    intro c hc
    fin_cases hc <;> norm_num
  have htot : (qualityChecks.map (fun c => c.2)).sum = 30 := by
    norm_num [qualityChecks]
  have hle := penalty_le_total item qualityChecks hw
  rw [htot] at hle
  have hnn := penalty_nonneg item qualityChecks hw
  have heq : calculate_quality_score item = 100 - penalty item qualityChecks := by
    unfold calculate_quality_score
    rw [scoreFold_eq_sub]
    exact max_eq_right (by linarith)
  exact ⟨by rw [heq]; linarith, heq, htot⟩

theorem fetch_go_all_fail (src : ℕ → Option (List Rec))
    (h : ∀ a, attempt_result src a = none) :
    ∀ (remaining a : ℕ), fetch_go src a remaining = (.error .fetchFailed, remaining) := by
  intro remaining
  induction remaining with
  | zero => intro a; rfl
  | succ r ih =>
      intro a
      by_cases hr : r = 0
      · subst hr; simp [fetch_go, h a]
      · simp [fetch_go, h a, hr, ih (a + 1)]

/-- C6: against a source whose every attempt fails, extraction makes exactly
`MAX_RETRIES` remote calls, raises, and writes nothing to the raw-snapshot
cache key. -/
theorem claim6_exhausted_retries (src : ℕ → Option (List Rec))
    (h : ∀ a, attempt_result src a = none) :
    (fetch_crypto_data none src).result = .error .fetchFailed ∧
    (fetch_crypto_data none src).remoteCalls = MAX_RETRIES ∧
    (fetch_crypto_data none src).cacheWrite = none := by
  have hg := fetch_go_all_fail src h MAX_RETRIES 0
  simp [fetch_crypto_data, hg]

theorem claim6_witness :
    (∀ a, attempt_result (fun _ => none) a = none) ∧
    (fetch_crypto_data none (fun _ => none)).result = .error .fetchFailed ∧
    (fetch_crypto_data none (fun _ => none)).remoteCalls = MAX_RETRIES ∧
    (fetch_crypto_data none (fun _ => none)).cacheWrite = none :=
  ⟨fun a => rfl, claim6_exhausted_retries (fun _ => none) (fun a => rfl)⟩

theorem fetch_go_first_success (src : ℕ → Option (List Rec)) (d : List Rec) :
    ∀ (k a remaining : ℕ), k < remaining →
      (∀ j, j < k → attempt_result src (a + j) = none) →
      attempt_result src (a + k) = some d →
      fetch_go src a remaining = (.ok d, k + 1) := by
  intro k
  induction k with
  | zero =>
      intro a remaining hlt h0 hk
      obtain ⟨r, rfl⟩ : ∃ r, remaining = r + 1 := ⟨remaining - 1, by omega⟩
      rw [Nat.add_zero] at hk
      simp [fetch_go, hk]
  | succ k ih =>
      intro a remaining hlt h0 hk
      obtain ⟨r, rfl⟩ : ∃ r, remaining = r + 1 := ⟨remaining - 1, by omega⟩
      have h0a : attempt_result src a = none := by
        have := h0 0 (by omega)
        simpa using this
      have hr : r ≠ 0 := by omega
      have ihh : fetch_go src (a + 1) r = (.ok d, k + 1) := by
        apply ih (a + 1) r (by omega)
        · intro j hj
          have := h0 (j + 1) (by omega)
          rw [show a + (j + 1) = a + 1 + j by omega] at this
          exact this
        · rw [show a + 1 + k = a + (k + 1) by omega]
          exact hk
      simp [fetch_go, h0a, hr, ihh]

/-- C7: against a source whose first `k` calls fail (with `k` below the retry
budget) and whose next call succeeds with payload `d`, extraction returns `d`,
makes exactly `k+1` remote calls, and caches the raw payload. -/
theorem claim7_retry_until_success (src : ℕ → Option (List Rec)) (d : List Rec)
    (k : ℕ) (hk : k < MAX_RETRIES)
    (hfail : ∀ j, j < k → attempt_result src j = none)
    (hsucc : attempt_result src k = some d) :
    (fetch_crypto_data none src).result = .ok d ∧
    (fetch_crypto_data none src).remoteCalls = k + 1 ∧
    (fetch_crypto_data none src).cacheWrite = some d := by
  have hg : fetch_go src 0 MAX_RETRIES = (.ok d, k + 1) := by
    apply fetch_go_first_success src d k 0 MAX_RETRIES hk
    · intro j hj; simpa using hfail j hj
    · simpa using hsucc
  simp [fetch_crypto_data, hg]

theorem claim7_witness :
    (2 < MAX_RETRIES) ∧
    (∀ j, j < 2 → attempt_result w7src j = none) ∧
    attempt_result w7src 2 = some [rawBitcoin] ∧
    (fetch_crypto_data none w7src).result = .ok [rawBitcoin] ∧
    (fetch_crypto_data none w7src).remoteCalls = 2 + 1 ∧
    (fetch_crypto_data none w7src).cacheWrite = some [rawBitcoin] := by
  refine ⟨by decide, ?_, rfl, ?_⟩
  · intro j hj
    match j, hj with
    | 0, _ => rfl
    | 1, _ => rfl
  · exact claim7_retry_until_success w7src [rawBitcoin] 2 (by decide)
      (fun j hj => by
        match j, hj with
        | 0, _ => rfl
        | 1, _ => rfl) rfl

theorem getD_asNum_eq (r : Rec) (field : String)
    (h : (pyGetD r field (.int 0)).asNum?.isSome = true) :
    (pyGetD r field (.int 0)).asNum? = some (capVal field r) := by
  unfold pyGetD at h
  unfold pyGetD capVal
  cases hl : recLookup r field with
  | none => simp [Val.asNum?]
  | some v =>
      rw [hl] at h
      simp only [Option.getD_some] at h ⊢
      obtain ⟨q, hq⟩ := Option.isSome_iff_exists.mp h
      simp [hq]

theorem pyGetD_eq_pyGet_of_truthy (r : Rec) (field : String) (d : Val)
    (h : (pyGet r field).truthy = true) : pyGetD r field d = pyGet r field := by
  unfold pyGet at h
  unfold pyGet pyGetD
  cases hl : recLookup r field with
  | none => rw [hl] at h; simp [Val.truthy] at h
  | some v => simp

theorem capVal_of_not_truthy (r : Rec) (field : String)
    (h : (pyGet r field).truthy = false) : capVal field r = 0 := by
  unfold pyGet at h
  unfold capVal
  cases hl : recLookup r field with
  | none => simp
  | some v =>
      rw [hl] at h
      simp only [Option.getD_some] at h
      cases v with
      | null => simp [Val.asNum?]
      | inf neg => simp [Val.truthy] at h
      | int n =>
          simp only [Val.truthy, bne_eq_false_iff_eq] at h
          simp [Val.asNum?, h]
      | float q =>
          simp only [Val.truthy, bne_eq_false_iff_eq] at h
          simp [Val.asNum?, h]
      | str s => simp [Val.asNum?]
      | bool b =>
          simp only [Val.truthy] at h
          simp [Val.asNum?, h]

theorem capVal_of_truthy_num (r : Rec) (field : String) (q : ℚ)
    (ht : (pyGet r field).truthy = true)
    (hq : (pyGet r field).asNum? = some q) : capVal field r = q := by
  unfold pyGet at ht hq
  unfold capVal
  cases hl : recLookup r field with
  | none => rw [hl] at ht; simp [Val.truthy] at ht
  | some v =>
      rw [hl] at hq
      simp only [Option.getD_some] at hq
      simp [hq]

theorem pyCount_eq (data : List Rec) (f : Rec → Option Bool) (g : Rec → Bool)
    (h : ∀ r ∈ data, f r = some (g r)) : pyCount data f = some (data.countP g) := by
  induction data with
  | nil => rfl
  | cons r t ih =>
      have hr := h r (List.mem_cons_self r t)
      have ht : ∀ x ∈ t, f x = some (g x) := fun x hx => h x (List.mem_cons_of_mem r hx)
      simp only [pyCount, List.foldr_cons] at ih ⊢
      rw [hr, ih ht]
      by_cases hg : g r <;> simp [hg, List.countP_cons, Nat.add_comm]

theorem pySum_cons (v : Val) (l : List Val) :
    pySum (v :: l) = (v.asNum?).bind (fun q => (pySum l).map (fun a => q + a)) := by
  simp only [pySum, List.foldr_cons]
  cases v.asNum? with
  | none => rfl
  | some q =>
      cases h : List.foldr
          (fun v acc => do
            let q ← v.asNum?
            let a ← acc
            pure (q + a))
          (some 0) l <;> rfl

theorem specSumNonNull_cons_null (field : String) (r : Rec) (t : List Rec)
    (hnn : pyGet r field = Val.null) :
    specSumNonNull field (r :: t) = specSumNonNull field t := by
  simp [specSumNonNull, List.filter_cons, hnn]

theorem specSumNonNull_cons_ne (field : String) (r : Rec) (t : List Rec)
    (hnn : ¬ pyGet r field = Val.null) :
    specSumNonNull field (r :: t) = capVal field r + specSumNonNull field t := by
  simp [specSumNonNull, List.filter_cons, hnn]

theorem pySum_eq_specSum (field : String) (data : List Rec)
    (h : ∀ r ∈ data, (pyGet r field).truthy = true → (pyGet r field).asNum?.isSome = true) :
    pySum ((data.filter (fun r => (pyGet r field).truthy)).map
      (fun r => pyGetD r field (.int 0))) = some (specSumNonNull field data) := by
  induction data with
  | nil => simp [pySum, specSumNonNull]
  | cons r t ih =>
      have ht : ∀ x ∈ t, (pyGet x field).truthy = true → (pyGet x field).asNum?.isSome = true :=
        fun x hx => h x (List.mem_cons_of_mem r hx)
      by_cases htr : (pyGet r field).truthy
      · have hnum := h r (List.mem_cons_self r t) htr
        obtain ⟨q, hq⟩ := Option.isSome_iff_exists.mp hnum
        have hnn : ¬ pyGet r field = Val.null := by
          intro he; rw [he] at htr; simp [Val.truthy] at htr
        have hgd : pyGetD r field (.int 0) = pyGet r field :=
          pyGetD_eq_pyGet_of_truthy r field _ htr
        have hcv : capVal field r = q := capVal_of_truthy_num r field q htr hq
        have hfc : List.filter (fun x => (pyGet x field).truthy) (r :: t) =
            r :: List.filter (fun x => (pyGet x field).truthy) t := by
          simp [List.filter_cons, htr]
        rw [hfc, List.map_cons, pySum_cons, hgd, hq, ih ht,
          specSumNonNull_cons_ne field r t hnn, hcv]
        rfl
      · have hcv : capVal field r = 0 := capVal_of_not_truthy r field (by simpa using htr)
        have hfc : List.filter (fun x => (pyGet x field).truthy) (r :: t) =
            List.filter (fun x => (pyGet x field).truthy) t := by
          simp [List.filter_cons, htr]
        rw [hfc, ih ht]
        by_cases hnn : pyGet r field = Val.null
        · rw [specSumNonNull_cons_null field r t hnn]
        · rw [specSumNonNull_cons_ne field r t hnn, hcv, zero_add]

theorem pyBetween_eq (v : Val) (lo hi q : ℚ) (hq : v.asNum? = some q) :
    pyBetween v lo hi = some (decide (lo < q) && decide (q ≤ hi)) := by
  simp only [pyBetween, pyGT, pyLE, hq, Option.map_some']
  by_cases h : lo < q
  · simp [h]
  · simp [h]

theorem tier_partition_positive (data : List Rec) :
    data.countP (fun r => decide ((10000000000 : ℚ) < capVal "market_cap" r)) +
      data.countP (fun r => decide ((1000000000 : ℚ) < capVal "market_cap" r) &&
        decide (capVal "market_cap" r ≤ 10000000000)) +
      data.countP (fun r => decide ((0 : ℚ) < capVal "market_cap" r) &&
        decide (capVal "market_cap" r ≤ 1000000000)) =
      data.countP (fun r => decide ((0 : ℚ) < capVal "market_cap" r)) := by
  induction data with
  | nil => simp
  | cons r t ih =>
      simp only [List.countP_cons]
      rcases le_or_lt (capVal "market_cap" r) 0 with h0 | h0
      · have h1 : ¬ (10000000000 : ℚ) < capVal "market_cap" r := by linarith
        have h2 : ¬ (1000000000 : ℚ) < capVal "market_cap" r := by linarith
        have h3 : ¬ (0 : ℚ) < capVal "market_cap" r := not_lt.mpr h0
        simp [h1, h2, h3]
        omega
      · rcases le_or_lt (capVal "market_cap" r) 1000000000 with h1 | h1
        · have h2 : ¬ (10000000000 : ℚ) < capVal "market_cap" r := by linarith
          have h3 : ¬ (1000000000 : ℚ) < capVal "market_cap" r := not_lt.mpr h1
          simp [h0, h1, h2, h3]
          omega
        · rcases le_or_lt (capVal "market_cap" r) 10000000000 with h2 | h2
          · have h3 : ¬ (10000000000 : ℚ) < capVal "market_cap" r := not_lt.mpr h2
            have h4 : ¬ capVal "market_cap" r ≤ (1000000000 : ℚ) := not_le.mpr h1
            simp [h0, h1, h2, h3, h4]
            omega
          · have h3 : ¬ capVal "market_cap" r ≤ (1000000000 : ℚ) := by linarith
            have h4 : ¬ capVal "market_cap" r ≤ (10000000000 : ℚ) := not_le.mpr h2
            simp [h0, h1, h2, h3, h4]
            omega

/-- C5 (amended): the pipeline's own statistics stage (update_data.py) never
recomputes MarketStats — its unbound-client guard raises `NameError` first
(C2).  The computation a running stage reaches is the updated variant's
(update_market_stats_updated.py); for it, whenever every record's market-cap
value is a number when present and every truthy 24h-volume value is a
number, MarketStats is recomputed from the raw record set with: totals
summed over the records with a non-null value for the field, the active
count equal to the number of records with positive market cap, and tiers
large > $10B, mid ($1B, $10B] and small (0, $1B] — so the three tiers
partition exactly the positively-capitalized records, leaving zero, missing
and null caps in no tier.  A raw set with an explicit null market cap
instead raises `TypeError` inside the stage (see the counterexample). -/
theorem claim5_stats_updated_variant (data : List Rec)
    (hcap : ∀ r ∈ data, (pyGetD r "market_cap" (.int 0)).asNum?.isSome = true)
    (hvol : ∀ r ∈ data, (pyGet r "total_volume").truthy = true →
      (pyGet r "total_volume").asNum?.isSome = true) :
    computeMarketStatsUpdated data = some
      { totalMarketCap := specSumNonNull "market_cap" data
        totalVolume24h := specSumNonNull "total_volume" data
        active := data.countP (fun r => decide ((0 : ℚ) < capVal "market_cap" r))
        largeCap := data.countP (fun r => decide ((10000000000 : ℚ) < capVal "market_cap" r))
        midCap := data.countP (fun r => decide ((1000000000 : ℚ) < capVal "market_cap" r) &&
          decide (capVal "market_cap" r ≤ 10000000000))
        smallCap := data.countP (fun r => decide ((0 : ℚ) < capVal "market_cap" r) &&
          decide (capVal "market_cap" r ≤ 1000000000)) } ∧
    data.countP (fun r => decide ((10000000000 : ℚ) < capVal "market_cap" r)) +
      data.countP (fun r => decide ((1000000000 : ℚ) < capVal "market_cap" r) &&
        decide (capVal "market_cap" r ≤ 10000000000)) +
      data.countP (fun r => decide ((0 : ℚ) < capVal "market_cap" r) &&
        decide (capVal "market_cap" r ≤ 1000000000)) =
      data.countP (fun r => decide ((0 : ℚ) < capVal "market_cap" r)) := by
  constructor
  · have hcap2 : ∀ r ∈ data, (pyGet r "market_cap").truthy = true →
        (pyGet r "market_cap").asNum?.isSome = true := by
      intro r hr htr
      have h := hcap r hr
      rwa [pyGetD_eq_pyGet_of_truthy r _ _ htr] at h
    have h1 := pySum_eq_specSum "market_cap" data hcap2
    have h2 := pySum_eq_specSum "total_volume" data hvol
    have h3 : pyCount data (fun r => pyGT (pyGetD r "market_cap" (.int 0)) 0) =
        some (data.countP (fun r => decide ((0 : ℚ) < capVal "market_cap" r))) := by
      apply pyCount_eq
      intro r hr
      simp only [pyGT, getD_asNum_eq r "market_cap" (hcap r hr), Option.map_some']
    have h4 : pyCount data (fun r => pyGT (pyGetD r "market_cap" (.int 0)) 10000000000) =
        some (data.countP
          (fun r => decide ((10000000000 : ℚ) < capVal "market_cap" r))) := by
      apply pyCount_eq
      intro r hr
      simp only [pyGT, getD_asNum_eq r "market_cap" (hcap r hr), Option.map_some']
    have h5 : pyCount data
        (fun r => pyBetween (pyGetD r "market_cap" (.int 0)) 1000000000 10000000000) =
        some (data.countP (fun r => decide ((1000000000 : ℚ) < capVal "market_cap" r) &&
          decide (capVal "market_cap" r ≤ 10000000000))) := by
      apply pyCount_eq
      intro r hr
      exact pyBetween_eq _ _ _ _ (getD_asNum_eq r "market_cap" (hcap r hr))
    have h6 : pyCount data
        (fun r => pyBetween (pyGetD r "market_cap" (.int 0)) 0 1000000000) =
        some (data.countP (fun r => decide ((0 : ℚ) < capVal "market_cap" r) &&
          decide (capVal "market_cap" r ≤ 1000000000))) := by
      apply pyCount_eq
      intro r hr
      exact pyBetween_eq _ _ _ _ (getD_asNum_eq r "market_cap" (hcap r hr))
    simp only [computeMarketStatsUpdated, h1, h2, h3, h4, h5, h6, Option.some_bind]
    rfl
  · exact tier_partition_positive data

/-- C5, counterexample to the claim as frozen: (i) the pipeline's stats
stage (update_data.py) raises `NameError` for every input, so MarketStats is
never recomputed from any raw set; (ii) in the updated variant — the
computation a running stage reaches — a record with a zero market cap lands
in none of the three tiers (every tier count of this 1-record set is 0),
refuting "every record is bucketed ... small (<= $1B)"; (iii) a record
carrying an explicit null market cap makes that computation raise
`TypeError` (`item.get('market_cap', 0) > 0`: the `.get` default does not
apply to present-but-null keys), so no MarketStats is produced there
either. -/
theorem claim5_counterexample :
    update_market_stats true [zeroCapRec] = .error .nameError ∧
    computeMarketStatsUpdated [zeroCapRec] = some ⟨0, 0, 0, 0, 0, 0⟩ ∧
    ([zeroCapRec] : List Rec).length = 1 ∧
    computeMarketStatsUpdated [badCapRec] = none :=
  ⟨rfl, rfl, rfl, rfl⟩

theorem claim5_witness :
    (∀ r ∈ statsData, (pyGetD r "market_cap" (.int 0)).asNum?.isSome = true) ∧
    (∀ r ∈ statsData, (pyGet r "total_volume").truthy = true →
      (pyGet r "total_volume").asNum?.isSome = true) ∧
    (computeMarketStatsUpdated statsData = some
      { totalMarketCap := specSumNonNull "market_cap" statsData
        totalVolume24h := specSumNonNull "total_volume" statsData
        active := statsData.countP (fun r => decide ((0 : ℚ) < capVal "market_cap" r))
        largeCap := statsData.countP
          (fun r => decide ((10000000000 : ℚ) < capVal "market_cap" r))
        midCap := statsData.countP
          (fun r => decide ((1000000000 : ℚ) < capVal "market_cap" r) &&
            decide (capVal "market_cap" r ≤ 10000000000))
        smallCap := statsData.countP
          (fun r => decide ((0 : ℚ) < capVal "market_cap" r) &&
            decide (capVal "market_cap" r ≤ 1000000000)) } ∧
    statsData.countP (fun r => decide ((10000000000 : ℚ) < capVal "market_cap" r)) +
      statsData.countP (fun r => decide ((1000000000 : ℚ) < capVal "market_cap" r) &&
        decide (capVal "market_cap" r ≤ 10000000000)) +
      statsData.countP (fun r => decide ((0 : ℚ) < capVal "market_cap" r) &&
        decide (capVal "market_cap" r ≤ 1000000000)) =
      statsData.countP (fun r => decide ((0 : ℚ) < capVal "market_cap" r))) :=
  ⟨by decide, by decide,
    claim5_stats_updated_variant statsData (by decide) (by decide)⟩

theorem numBatches_zero (bs : ℕ) (hbs : 0 < bs) : numBatches bs 0 = 0 := by
  unfold numBatches
  exact Nat.div_eq_of_lt (by omega)

theorem chunks_nil (bs : ℕ) (hbs : 0 < bs) : chunks (α := Rec) bs [] = [] := by
  simp [chunks, numBatches_zero bs hbs]

theorem numBatches_bounds (bs n : ℕ) (hbs : 0 < bs) (hn : 0 < n) :
    n ≤ numBatches bs n * bs ∧ (numBatches bs n - 1) * bs < n := by
  have hdm := Nat.div_add_mod (n + bs - 1) bs
  have hlt : (n + bs - 1) % bs < bs := Nat.mod_lt _ hbs
  unfold numBatches
  rw [Nat.mul_comm bs ((n + bs - 1) / bs)] at hdm
  rw [Nat.sub_one_mul]
  generalize (n + bs - 1) / bs * bs = M at hdm ⊢
  omega

theorem chunks_length (bs : ℕ) (l : List Rec) :
    (chunks bs l).length = numBatches bs l.length := by
  simp [chunks]

theorem chunks_mem_len (bs : ℕ) (hbs : 0 < bs) (l : List Rec) :
    ∀ c ∈ chunks bs l, 0 < c.length ∧ c.length ≤ bs := by
  intro c hc
  simp only [chunks, List.mem_map, List.mem_range] at hc
  obtain ⟨b, hb, rfl⟩ := hc
  have hn : 0 < l.length := by
    by_contra h
    have : l.length = 0 := by omega
    rw [this, numBatches_zero bs hbs] at hb
    omega
  have hbd := numBatches_bounds bs l.length hbs hn
  have hblt : b * bs < l.length := by
    calc b * bs ≤ (numBatches bs l.length - 1) * bs :=
          Nat.mul_le_mul_right bs (by omega)
      _ < l.length := hbd.2
  constructor
  · simp only [List.length_take, List.length_drop]
    omega
  · simp only [List.length_take, List.length_drop]
    omega

theorem chunks_full_size (bs : ℕ) (hbs : 0 < bs) (l : List Rec) :
    ∀ i, i + 1 < (chunks bs l).length → ((chunks bs l).getD i []).length = bs := by
  intro i hi
  rw [chunks_length] at hi
  have hn : 0 < l.length := by
    by_contra h
    have : l.length = 0 := by omega
    rw [this, numBatches_zero bs hbs] at hi
    omega
  have hbd := numBatches_bounds bs l.length hbs hn
  have hfull : (i + 1) * bs ≤ l.length := by
    calc (i + 1) * bs ≤ (numBatches bs l.length - 1) * bs :=
          Nat.mul_le_mul_right bs (by omega)
      _ ≤ l.length := le_of_lt hbd.2
  have hget : (chunks bs l).getD i [] = (l.drop (i * bs)).take bs := by
    have hidx : i < numBatches bs l.length := by omega
    simp [chunks, List.getD, List.getElem?_map, List.getElem?_range, hidx]
  rw [hget]
  simp only [List.length_take, List.length_drop]
  have h2 : i * bs + bs ≤ l.length := by
    have h3 : (i + 1) * bs = i * bs + bs := by ring
    rw [h3] at hfull
    exact hfull
  exact min_eq_left (Nat.le_sub_of_add_le (by rw [Nat.add_comm]; exact h2))

theorem numBatches_step (bs n : ℕ) (hbs : 0 < bs) (hn : 0 < n) :
    numBatches bs n = numBatches bs (n - bs) + 1 := by
  unfold numBatches
  by_cases hle : n ≤ bs
  · have h1 : n - bs = 0 := by omega
    rw [h1]
    have h2 : (0 + bs - 1) / bs = 0 := Nat.div_eq_of_lt (by omega)
    rw [h2]
    have h3 : n + bs - 1 = (n - 1) + bs := by omega
    rw [h3, Nat.add_div_right _ hbs]
    have h4 : (n - 1) / bs = 0 := Nat.div_eq_of_lt (by omega)
    omega
  · have h3 : n + bs - 1 = (n - 1) + bs := by omega
    have h4 : n - bs + bs - 1 = (n - bs - 1) + bs := by omega
    rw [h3, h4, Nat.add_div_right _ hbs, Nat.add_div_right _ hbs]
    have h5 : n - 1 = (n - bs - 1) + bs := by omega
    rw [h5, Nat.add_div_right _ hbs]

theorem chunks_cons (bs : ℕ) (hbs : 0 < bs) (l : List Rec) (hl : l ≠ []) :
    chunks bs l = l.take bs :: chunks bs (l.drop bs) := by
  have hn : 0 < l.length := List.length_pos.mpr hl
  unfold chunks
  rw [numBatches_step bs l.length hbs hn, List.length_drop, List.range_succ_eq_map,
    List.map_cons, List.map_map]
  simp only [Nat.zero_mul, List.drop_zero]
  congr 1
  apply List.map_congr_left
  intro b hb
  simp only [Function.comp_apply, List.drop_drop]
  congr 2
  simp only [Nat.succ_eq_add_one]
  ring

theorem chunks_join_aux (bs : ℕ) (hbs : 0 < bs) :
    ∀ (n : ℕ) (l : List Rec), l.length ≤ n → (chunks bs l).flatten = l := by
  intro n
  induction n with
  | zero =>
      intro l hl
      have h0 : l = [] := List.eq_nil_of_length_eq_zero (by omega)
      subst h0
      rw [chunks_nil bs hbs, List.flatten_nil]
  | succ n ih =>
      intro l hl
      cases l with
      | nil => rw [chunks_nil bs hbs, List.flatten_nil]
      | cons a t =>
          rw [chunks_cons bs hbs _ (by simp), List.flatten_cons,
            ih ((a :: t).drop bs) (by simp only [List.length_drop]; simp at hl ⊢; omega),
            List.take_append_drop]

theorem chunks_join (bs : ℕ) (hbs : 0 < bs) (l : List Rec) :
    (chunks bs l).flatten = l :=
  chunks_join_aux bs hbs l.length l le_rfl

theorem loadBatches_spec (redisUp : Bool) (storeOk : ℕ → ℕ → Bool) (now : String) :
    ∀ (bl : List (List Rec)) (bn : ℕ),
      (loadBatches redisUp storeOk now bn bl).successCount +
        (loadBatches redisUp storeOk now bn bl).failedCount = (bl.map List.length).sum ∧
      (loadBatches redisUp storeOk now bn bl).processedBatches = bl.length := by
  intro bl
  induction bl with
  | nil => intro bn; simp [loadBatches]
  | cons b rest ih =>
      intro bn
      have ihn := ih (bn + 1)
      simp only [loadBatches, LoadResult.append, List.map_cons, List.sum_cons,
        List.length_cons]
      unfold processBatch
      cases hb : buildRedisData now b with
      | none => dsimp only; omega
      | some rd =>
          dsimp only
          by_cases hs : store_in_redis redisUp (storeOk bn)
          · rw [if_pos hs]; dsimp only; omega
          · rw [if_neg hs]; dsimp only; omega

/-- C8: the load stage splits the accepted snapshots into the source's own
ceiling count of batches — in order, re-concatenating to the input, every
batch nonempty and at most the batch size, all but the last exactly the batch
size; its success and failure tallies always sum to the input size and every
batch is processed even when an earlier batch exhausts its retries (batch 2 of
the 2,2,1 scenario fails all its attempts and the summary still reads 3
succeeded + 2 failed over 3 processed batches).  But the cycle itself then
raises `NameError` in the statistics stage no matter whether batches failed,
so "the cycle still completes" does not hold on this code (same defect as
C2). -/
theorem claim8_load_partial_failure (bs : ℕ) (data : List Rec)
    (storeOk : ℕ → ℕ → Bool) (now : String) (hbs : 0 < bs) :
    (chunks bs data).length = (data.length + bs - 1) / bs ∧
    (chunks bs data).flatten = data ∧
    (∀ c ∈ chunks bs data, 0 < c.length ∧ c.length ≤ bs) ∧
    (∀ i, i + 1 < (chunks bs data).length → ((chunks bs data).getD i []).length = bs) ∧
    (update_database_with bs true storeOk now data).successCount +
      (update_database_with bs true storeOk now data).failedCount = data.length ∧
    (update_database_with bs true storeOk now data).processedBatches =
      (chunks bs data).length ∧
    (update_database_with 2 true (fun bn _ => bn != 2) "T" raw5).successCount = 3 ∧
    (update_database_with 2 true (fun bn _ => bn != 2) "T" raw5).failedCount = 2 ∧
    (update_database_with 2 true (fun bn _ => bn != 2) "T" raw5).processedBatches = 3 ∧
    (run_update (some raw5) (fun _ => none) true (fun bn _ => bn != 2) true "T").outcome =
      .error .nameError ∧
    (run_update (some raw5) (fun _ => none) true (fun _ _ => true) true "T").outcome =
      .error .nameError := by
  have hjoin := chunks_join bs hbs data
  have hsum : ((chunks bs data).map List.length).sum = data.length := by
    conv_rhs => rw [← hjoin]
    rw [List.length_flatten]
  have hspec := loadBatches_spec true storeOk now (chunks bs data) 1
  have hcounts : (update_database_with bs true storeOk now data).successCount +
        (update_database_with bs true storeOk now data).failedCount = data.length ∧
      (update_database_with bs true storeOk now data).processedBatches =
        (chunks bs data).length := by
    cases hd : data.isEmpty
    · simp only [update_database_with, hd, Bool.false_eq_true, if_false]
      rw [hsum] at hspec
      exact hspec
    · have hdata : data = [] := List.isEmpty_iff.mp hd
      subst hdata
      simp [update_database_with, chunks_nil bs hbs]
  exact ⟨chunks_length bs data, hjoin, chunks_mem_len bs hbs data,
    chunks_full_size bs hbs data, hcounts.1, hcounts.2, rfl, rfl, rfl, rfl, rfl⟩

theorem claim8_witness :
    ((0 : ℕ) < 2) ∧
    ((chunks 2 raw5).length = (raw5.length + 2 - 1) / 2 ∧
    (chunks 2 raw5).flatten = raw5 ∧
    (∀ c ∈ chunks 2 raw5, 0 < c.length ∧ c.length ≤ 2) ∧
    (∀ i, i + 1 < (chunks 2 raw5).length → ((chunks 2 raw5).getD i []).length = 2) ∧
    (update_database_with 2 true (fun bn _ => bn != 2) "T" raw5).successCount +
      (update_database_with 2 true (fun bn _ => bn != 2) "T" raw5).failedCount =
      raw5.length ∧
    (update_database_with 2 true (fun bn _ => bn != 2) "T" raw5).processedBatches =
      (chunks 2 raw5).length ∧
    (update_database_with 2 true (fun bn _ => bn != 2) "T" raw5).successCount = 3 ∧
    (update_database_with 2 true (fun bn _ => bn != 2) "T" raw5).failedCount = 2 ∧
    (update_database_with 2 true (fun bn _ => bn != 2) "T" raw5).processedBatches = 3 ∧
    (run_update (some raw5) (fun _ => none) true (fun bn _ => bn != 2) true "T").outcome =
      .error .nameError ∧
    (run_update (some raw5) (fun _ => none) true (fun _ _ => true) true "T").outcome =
      .error .nameError) :=
  ⟨by decide, claim8_load_partial_failure 2 raw5 (fun bn _ => bn != 2) "T" (by decide)⟩

